import Mathlib

/-!
# Verification of the claude-task-master Claude Code provider

A shallow embedding, in Lean 4, of the command-resolution and execution
subsystem of `src/ai-providers/claude-code.js` together with the pieces of
`src/utils/clauderc-parser.js` it consumes (`applyAliases`, `unquote`), and
theorems checking the specification's claims about it.

Modelling conventions:
* JavaScript strings are Lean `String`s; character-by-character scans walk
  `List Char`.
* A JavaScript value that may be `null`/`undefined` is an `Option`.
  JavaScript truthiness on such a string value (`if (x)`) is `jsTruthy`:
  `some s` with `s` non-empty.
* JavaScript objects used as string maps are association lists with
  first-match lookup.
* Functions that reject/throw return `Except String` values.
-/

set_option autoImplicit false

namespace ClaudeCode

/-- The single-quote character (written via its code point to keep source
free of quote-escape noise). -/
def squote : Char := Char.ofNat 39

/-- Left brace character. -/
def lbrace : Char := Char.ofNat 123

/-- Right brace character. -/
def rbrace : Char := Char.ofNat 125

/-- JavaScript truthiness of a nullable string: `null`/`undefined` and the
empty string are falsy. -/
def jsTruthy : Option String → Bool
  | none => false
  | some s => !s.isEmpty

/-- JavaScript object lookup on a string-keyed map modelled as an
association list (`obj[key]`, `undefined` when absent). -/
def jsLookup (m : List (String × String)) (k : String) : Option String :=
  (m.find? (fun p => p.1 == k)).map (fun p => p.2)

/-- claude-code.js lines 271-339 `parseCommand`, inner scan. One step per
source character: a backslash escaping a quote or backslash consumes both
characters and appends the escaped character (the `escapeNext` flag of the
source collapsed into a two-character step); any other backslash is itself
appended; an unescaped matching quote toggles quote state and is dropped; a
space outside quotes flushes the current token when non-empty. At the end
of input the final non-empty token is flushed regardless of quote state. -/
def parseTokens : List Char → String → Bool → Option Char → List String
  | [], current, _, _ =>
      if current.length > 0 then [current] else []
  | c :: rest, current, inQuote, quoteChar =>
      if c == '\\' then
        match rest with
        | c2 :: rest2 =>
            if c2 == '"' || c2 == squote || c2 == '\\' then
              parseTokens rest2 (current.push c2) inQuote quoteChar
            else
              parseTokens (c2 :: rest2) (current.push '\\') inQuote quoteChar
        | [] => parseTokens [] (current.push '\\') inQuote quoteChar
      else if (c == '"' || c == squote) && (!inQuote || some c == quoteChar) then
        if !inQuote then parseTokens rest current true (some c)
        else parseTokens rest current false none
      else if c == ' ' && !inQuote then
        if current.length > 0 then current :: parseTokens rest "" inQuote quoteChar
        else parseTokens rest current inQuote quoteChar
      else
        parseTokens rest (current.push c) inQuote quoteChar

/-- claude-code.js lines 271-339 `parseCommand`: split a command string into
executable (first token, empty string when there is none) and arguments
(remaining tokens). -/
def parseCommand (command : String) : String × List String :=
  let parts := parseTokens command.toList "" false none
  (parts.headD "", parts.tail)

/-- clauderc-parser.js lines 573-583 `unquote`: strip one matching pair of
surrounding single or double quotes (`startsWith`/`endsWith` plus
`slice(1, -1)` spelled out on the character list, so that the definition
reduces inside the kernel). -/
def unquote (s : String) : String :=
  if s.isEmpty then s
  else
    let cs := s.toList
    if (cs.headD ' ' == '"' && cs.getLastD ' ' == '"') ||
       (cs.headD ' ' == squote && cs.getLastD ' ' == squote) then
      String.mk ((cs.drop 1).dropLast)
    else s

/-- clauderc-parser.js lines 649-697 `applyAliases`, inner split: break the
command on unquoted spaces, keeping quote characters inside the parts. -/
def aliasSplit : List Char → String → Bool → Option Char → List String
  | [], current, _, _ =>
      if current.isEmpty then [] else [current]
  | c :: rest, current, inQuote, quoteChar =>
      if (c == '"' || c == squote) && (!inQuote || some c == quoteChar) then
        if !inQuote then aliasSplit rest (current.push c) true (some c)
        else aliasSplit rest (current.push c) false none
      else if c == ' ' && !inQuote then
        if current.isEmpty then aliasSplit rest current inQuote quoteChar
        else current :: aliasSplit rest "" inQuote quoteChar
      else aliasSplit rest (current.push c) inQuote quoteChar

/-- clauderc-parser.js lines 649-697 `applyAliases`: with a non-empty alias
map, split the command into parts, replace any part whose unquoted form
names an alias with a truthy (non-empty) value by that value, and re-join
with single spaces. -/
def applyAliases (command : String) (aliases : List (String × String)) : String :=
  if aliases.isEmpty then command
  else
    let parts := aliasSplit command.toList "" false none
    let expanded := parts.map (fun part =>
      match jsLookup aliases (unquote part) with
      | some v => if v.isEmpty then part else v
      | none => part)
    String.intercalate (" ") expanded

/-- JavaScript `toLowerCase` restricted to ASCII (all model names are
ASCII), via a plain character-list map so the kernel can evaluate it. -/
def jsToLower (s : String) : String := String.mk (s.toList.map Char.toLower)

/-- claude-code.js lines 126-144 `resolveModelAlias`: `null` for a falsy
name; the three built-in aliases matched case-insensitively; any other name
passed through unchanged. -/
def resolveModelAlias (modelName : Option String) : Option String :=
  if !jsTruthy modelName then none
  else
    let s := modelName.getD ""
    let lower := jsToLower s
    if lower == ("opus") then some ("claude-opus-4-20250514")
    else if lower == ("sonnet") then some ("claude-sonnet-4-20250514")
    else if lower == ("haiku") then some ("claude-3-haiku-20240307")
    else some s

/-- The caller-supplied parameters of `getClaudeCommand` /
`getClaudeCommandParsed` (claude-code.js lines 344-346). -/
structure Params where
  claudeCodeCommand : Option String := none
  modelId : Option String := none

/-- The effective RC configuration as cached by `getRCConfig`
(claude-code.js lines 151-166 together with clauderc-parser.js
`getEffectiveConfig`): a `command` variable, a `model` variable and the raw
alias map. Whenever the RC file loaded, `rawAliases` is present (possibly
empty). -/
structure RCEffective where
  command : Option String := none
  model : Option String := none
  rawAliases : List (String × String) := []

/-- The configuration state one resolution call observes: the call
parameters, the two environment variables read by the resolver, the cached
RC configuration (`none` when no RC file loaded) and the memoized
auto-detection outcome (`none` when detection found nothing). -/
structure ProviderState where
  params : Params := {}
  envCommand : Option String := none
  envModel : Option String := none
  rcConfig : Option RCEffective := none
  detected : Option String := none

/-- claude-code.js lines 387-405 (and identically 472-490): the base-command
precedence chain. `none` models the `baseCommand === null` state that makes
the resolver return `null`. -/
def resolveBaseCommand (st : ProviderState) : Option String :=
  if jsTruthy st.params.claudeCodeCommand then st.params.claudeCodeCommand
  else if jsTruthy st.envCommand then st.envCommand
  else if jsTruthy (st.rcConfig.bind RCEffective.command) then
    st.rcConfig.bind RCEffective.command
  else if jsTruthy st.detected then st.detected
  else none

/-- claude-code.js lines 409-425 (and identically 494-510): model
resolution. Returns the pair `(modelToUse, modelArgs)`; at most one
component is `some`, and any `some` value is non-empty (truthy). -/
def resolveModel (st : ProviderState) : Option String × Option String :=
  if jsTruthy st.params.modelId then
    match st.rcConfig with
    | some rc =>
        if jsTruthy (jsLookup rc.rawAliases (st.params.modelId.getD "")) then
          (none, jsLookup rc.rawAliases (st.params.modelId.getD ""))
        else (resolveModelAlias st.params.modelId, none)
    | none => (resolveModelAlias st.params.modelId, none)
  else if jsTruthy st.envModel then (resolveModelAlias st.envModel, none)
  else if jsTruthy (st.rcConfig.bind RCEffective.model) then
    (resolveModelAlias (st.rcConfig.bind RCEffective.model), none)
  else (none, none)

/-- claude-code.js lines 427-430 (and identically 512-515): the base command
after RC alias substitution. `rcConfig?.rawAliases` is truthy exactly when
the RC config exists (the alias map object itself is always truthy). -/
def aliasedBaseCommand (st : ProviderState) : Option String :=
  (resolveBaseCommand st).map (fun b =>
    match st.rcConfig with
    | some rc => applyAliases b rc.rawAliases
    | none => b)

/-- claude-code.js lines 434-436 (and identically 519-521): does the
argument list already contain `--model` at a non-final index? -/
def hasModelFlag (args : List String) : Bool :=
  args.enum.any (fun p => p.2 == ("--model") && decide (p.1 < args.length - 1))

/-- claude-code.js lines 439-449 (and identically 524-534): the arguments
appended after the base command's own arguments. An RC alias expansion is
tokenized via `parseCommand` with a dummy executable and appended
unconditionally; otherwise a resolved model is appended as a `--model` pair
unless the flag is already present with a value. -/
def modelAdditions (st : ProviderState) (args : List String) : List String :=
  match (resolveModel st).2 with
  | some ma => (parseCommand (("dummy ") ++ ma)).2
  | none =>
      match (resolveModel st).1 with
      | some m => if hasModelFlag args then [] else [("--model"), m]
      | none => []

/-- claude-code.js lines 462-537 `getClaudeCommandParsed`: full resolution
to an executable plus final argument list, `none` when no base command
source is available. -/
def getClaudeCommandParsed (st : ProviderState) : Option (String × List String) :=
  match aliasedBaseCommand st with
  | none => none
  | some base =>
      let pc := parseCommand base
      some (pc.1, pc.2 ++ modelAdditions st pc.2)

/-- claude-code.js line 451: `parts` re-joined into a single string. -/
def renderCommand (p : String × List String) : String :=
  if p.2.isEmpty then p.1 else p.1 ++ " " ++ String.intercalate (" ") p.2

/-- claude-code.js lines 377-452 `getClaudeCommand`. The source duplicates
the whole body of `getClaudeCommandParsed` verbatim and differs only in the
final line, which re-joins executable and arguments into one string. -/
def getClaudeCommand (st : ProviderState) : Option String :=
  (getClaudeCommandParsed st).map renderCommand

/-! ## Command executor (claude-code.js lines 741-866 `executeClaudeCode`) -/

/-- JavaScript `\s` whitespace (the characters relevant to this code base;
the exotic Unicode space family is included for the common members). -/
def isJsWs (c : Char) : Bool :=
  c == ' ' || c == '\t' || c == '\n' || c == '\r' || c == '\x0b' ||
  c == '\x0c' || c == Char.ofNat 160 || c == Char.ofNat 65279

/-- JavaScript `String.prototype.trim`: strip `\s` from both ends. -/
def jsTrim (s : String) : String :=
  String.mk (((s.toList.dropWhile isJsWs).reverse.dropWhile isJsWs).reverse)

/-- Render a `close` event's exit code as JavaScript string interpolation
does (`null` when the child was terminated by a signal). -/
def exitCodeText : Option Int → String
  | none => "null"
  | some n => toString n

/-- claude-code.js lines 838-847, the `close` handler: non-zero (or null)
exit code rejects with code and stderr; zero exit with stderr output but
empty stdout rejects; otherwise resolve with trimmed stdout. -/
def closeHandler (code : Option Int) (stdout stderr : String) : Except String String :=
  if code != some 0 then
    .error (("Claude Code error (code ") ++ exitCodeText code ++ ("): ") ++ stderr)
  else if !stderr.isEmpty && stdout.isEmpty then
    .error (("Claude Code error: ") ++ stderr)
  else
    .ok (jsTrim stdout)

/-- JavaScript assignment `env[key] = value` on an environment modelled as
an association list: overwrite in place when the key is present, append
otherwise. -/
def setEnv (env : List (String × String)) (k v : String) : List (String × String) :=
  if (env.find? (fun p => p.1 == k)).isSome then
    env.map (fun p => if p.1 == k then (k, v) else p)
  else env ++ [(k, v)]

/-- claude-code.js lines 742-751: merge the RC-file exports into the
process environment. For each export, the assignment is guarded by
`!process.env[key]`, so a key is written when it is absent OR currently
holds the empty string (both are falsy). -/
def mergeRCEnvironment : List (String × String) → List (String × String) →
    List (String × String)
  | env, [] => env
  | env, kv :: tl =>
      mergeRCEnvironment
        (if jsTruthy (jsLookup env kv.1) then env else setEnv env kv.1 kv.2) tl

/-- How the spawned child behaves, as observed by `executeClaudeCode`:
a `close` event with exit code and accumulated output, an `error` event, or
the five-minute timer firing first. -/
inductive ProcOutcome where
  | closed (code : Option Int) (stdout stderr : String)
  | procError (msg : String)
  | timedOut

/-- The world one `executeClaudeCode` invocation observes: the process
environment, the RC-file export map (`none` when no RC config loaded), the
result of `getClaudeCommandParsed`, whether the `accessSync` executable
check passes, how the child process behaves, and whether `unlinkSync`
throws during cleanup. -/
structure ExecWorld where
  env : List (String × String) := []
  rcEnvironment : Option (List (String × String)) := none
  resolved : Option (String × List String) := none
  accessOk : Bool := true
  outcome : ProcOutcome := ProcOutcome.closed (some 0) ("") ("")
  unlinkFails : Bool := false

/-- The observable effects of one `executeClaudeCode` invocation. -/
structure ExecTrace where
  /-- Settlement of the returned promise: trimmed stdout, or the thrown /
  rejected error message. -/
  result : Except String String
  /-- The process environment after the RC-export merge step. -/
  envAfter : List (String × String)
  /-- Was the temporary prompt file created? -/
  tempFileWritten : Bool
  /-- Was `unlinkSync` invoked on it in the `finally` block? -/
  unlinkAttempted : Bool
  /-- The error swallowed by the cleanup `catch`, if any. Never part of
  `result`. -/
  cleanupError : Option String
  /-- Executable and argument list passed to `spawn`, when reached. -/
  spawned : Option (String × List String)

/-- claude-code.js line 759-765 error text. -/
def notFoundMessage : String :=
  "Claude Code not found. Please install Claude Code."

/-- claude-code.js lines 801-803 error text for a failed executable check. -/
def notExecutableMessage (claudePath : String) : String :=
  ("Claude Code not found or not executable at: ") ++ claudePath ++
  (". Please check your CLAUDE_CODE_COMMAND environment variable.")

/-- claude-code.js lines 741-866 `executeClaudeCode`: merge RC exports into
the environment; fail when resolution failed; ensure a print flag; verify
the executable; write the temp prompt file; spawn and settle per the child
outcome; and in the `finally` block delete the temp file when one was
created, swallowing any cleanup error. (The file-reference prompt rewrite
of lines 768-785 only edits the prompt text and is not modelled; no claim
concerns it.) -/
def executeClaudeCode (w : ExecWorld) : ExecTrace :=
  let env1 := match w.rcEnvironment with
    | some rcEnv => mergeRCEnvironment w.env rcEnv
    | none => w.env
  match w.resolved with
  | none =>
      { result := .error notFoundMessage, envAfter := env1,
        tempFileWritten := false, unlinkAttempted := false,
        cleanupError := none, spawned := none }
  | some (claudePath, parsedArgs) =>
      let args :=
        if parsedArgs.contains ("-p") || parsedArgs.contains ("--print") then
          parsedArgs
        else ("-p") :: parsedArgs
      if !w.accessOk then
        { result := .error (notExecutableMessage claudePath), envAfter := env1,
          tempFileWritten := false, unlinkAttempted := false,
          cleanupError := none, spawned := none }
      else
        let res := match w.outcome with
          | .timedOut => .error ("Claude Code timed out after 5 minutes")
          | .procError msg => .error msg
          | .closed code out err => closeHandler code out err
        { result := res, envAfter := env1,
          tempFileWritten := true, unlinkAttempted := true,
          cleanupError := if w.unlinkFails then some ("unlink failed") else none,
          spawned := some (claudePath, args) }

/-! ## Object generation (claude-code.js lines 659-710 `generateObject`) -/

/-- One global-regex replacement pass of `pattern + \s*` by the empty
string: scan left to right; wherever the literal pattern matches, drop it
together with the maximal following whitespace run and continue scanning
after the match, as `String.replace(/pat\s*/g, '')` does. Fuel is the
length of the scanned list, which each step strictly decreases for a
non-empty pattern. -/
def stripFenceAux : Nat → List Char → List Char → List Char
  | 0, _, l => l
  | _ + 1, pat, [] =>
      if pat.isEmpty then [] else []
  | fuel + 1, pat, c :: rest =>
      if pat.isPrefixOf (c :: rest) && !pat.isEmpty then
        stripFenceAux fuel pat (((c :: rest).drop pat.length).dropWhile isJsWs)
      else c :: stripFenceAux fuel pat rest

/-- claude-code.js line 685: delete every ```` ```json ```` marker (with its
trailing whitespace), then every ```` ``` ```` marker (with its trailing
whitespace). -/
def stripCodeFences (cs : List Char) : List Char :=
  let a := stripFenceAux (cs.length + 1) (("```json").toList) cs
  stripFenceAux (a.length + 1) (("```").toList) a

/-- JavaScript `String.prototype.substring` on a character list: clamp both
indices to the length, swap them when start exceeds end, return the
in-between slice. -/
def jsSubstring (cs : List Char) (a b : Nat) : List Char :=
  let a2 := min a cs.length
  let b2 := min b cs.length
  (cs.take (max a2 b2)).drop (min a2 b2)

/-- Index of the last occurrence of `c` (JavaScript `lastIndexOf`,
`none` for `-1`). -/
def lastIdxOf (cs : List Char) (c : Char) : Option Nat :=
  (cs.reverse.findIdx? (fun d => d == c)).map (fun r => cs.length - 1 - r)

/-- claude-code.js lines 682-692: trim the generated text, strip code-fence
markers, and when both a first `{` and a last `}` exist, cut the text down
to the substring from the first `{` through the last `}`. -/
def extractJsonText (text : String) : String :=
  let t := stripCodeFences (jsTrim text).toList
  match t.findIdx? (fun d => d == lbrace), lastIdxOf t rbrace with
  | some f, some l => String.mk (jsSubstring t f (l + 1))
  | _, _ => String.mk t

/-- JSON values as produced by `JSON.parse`, with numbers kept as their
source lexemes (this development never needs numeric arithmetic). -/
inductive JsonValue where
  | null : JsonValue
  | bool (b : Bool) : JsonValue
  | num (lexeme : String) : JsonValue
  | str (s : String) : JsonValue
  | arr (elems : List JsonValue) : JsonValue
  | obj (fields : List (String × JsonValue)) : JsonValue

/-- JSON (RFC 8259) insignificant whitespace. -/
def isJsonWs (c : Char) : Bool :=
  c == ' ' || c == '\t' || c == '\n' || c == '\r'

/-- Hexadecimal digit value. -/
def hexVal (c : Char) : Option Nat :=
  if c.isDigit then some (c.toNat - 48)
  else if 97 ≤ c.toNat && c.toNat ≤ 102 then some (c.toNat - 87)
  else if 65 ≤ c.toNat && c.toNat ≤ 70 then some (c.toNat - 55)
  else none

/-- Scan a JSON string body (after the opening quote) up to the closing
quote, decoding the escape sequences `JSON.parse` accepts. -/
def scanJsonString : List Char → String → Except String (String × List Char)
  | [], _ => .error ("Unterminated string in JSON")
  | c :: rest, acc =>
      if c == '"' then .ok (acc, rest)
      else if c == '\\' then
        match rest with
        | [] => .error ("Unterminated string in JSON")
        | e :: rest2 =>
            if e == '"' || e == '\\' || e == '/' then
              scanJsonString rest2 (acc.push e)
            else if e == 'b' then scanJsonString rest2 (acc.push (Char.ofNat 8))
            else if e == 'f' then scanJsonString rest2 (acc.push (Char.ofNat 12))
            else if e == 'n' then scanJsonString rest2 (acc.push '\n')
            else if e == 'r' then scanJsonString rest2 (acc.push '\r')
            else if e == 't' then scanJsonString rest2 (acc.push '\t')
            else if e == 'u' then
              match rest2 with
              | h1 :: h2 :: h3 :: h4 :: rest3 =>
                  match hexVal h1, hexVal h2, hexVal h3, hexVal h4 with
                  | some a, some b, some c3, some d =>
                      scanJsonString rest3
                        (acc.push (Char.ofNat (((a * 16 + b) * 16 + c3) * 16 + d)))
                  | _, _, _, _ => .error ("Bad Unicode escape in JSON")
              | _ => .error ("Bad Unicode escape in JSON")
            else .error ("Bad escaped character in JSON")
      else scanJsonString rest (acc.push c)

/-- Scan a JSON number lexeme (`-?digits(.digits)?([eE][+-]?digits)?`). -/
def scanJsonNumber (l : List Char) : Except String (String × List Char) :=
  let (sign, l1) := if l.headD ' ' == '-' then (['-'], l.drop 1) else ([], l)
  let intPart := l1.takeWhile Char.isDigit
  let l2 := l1.dropWhile Char.isDigit
  if intPart.isEmpty then .error ("Unexpected token in JSON")
  else
    let (fracPart, l3) :=
      if l2.headD ' ' == '.' then
        let d := (l2.drop 1).takeWhile Char.isDigit
        ('.' :: d, (l2.drop 1).dropWhile Char.isDigit)
      else ([], l2)
    if fracPart == ['.'] then .error ("Unexpected token in JSON")
    else
      let expHead := l3.headD ' '
      if expHead == 'e' || expHead == 'E' then
        let (signE, l4) :=
          if (l3.drop 1).headD ' ' == '+' || (l3.drop 1).headD ' ' == '-' then
            ([(l3.drop 1).headD ' '], l3.drop 2)
          else ([], l3.drop 1)
        let expPart := l4.takeWhile Char.isDigit
        if expPart.isEmpty then .error ("Unexpected token in JSON")
        else .ok (String.mk (sign ++ intPart ++ fracPart ++ [expHead] ++ signE ++ expPart),
                  l4.dropWhile Char.isDigit)
      else .ok (String.mk (sign ++ intPart ++ fracPart), l3)

mutual

/-- Fuel-indexed recursive-descent JSON value parser modelling
`JSON.parse`. Fuel bounds the recursion; `input length + 1` always
suffices since every recursive step first consumes at least one input
character. -/
def parseJsonValue : Nat → List Char → Except String (JsonValue × List Char)
  | 0, _ => .error ("JSON nesting too deep")
  | fuel + 1, l =>
      match l.dropWhile isJsonWs with
      | [] => .error ("Unexpected end of JSON input")
      | c :: rest =>
          if c == lbrace then
            match (rest.dropWhile isJsonWs).headD ' ' == rbrace, rest.dropWhile isJsonWs with
            | true, _ :: rest2 => .ok (JsonValue.obj [], rest2)
            | _, _ => parseJsonFields fuel rest []
          else if c == '[' then
            match (rest.dropWhile isJsonWs).headD ' ' == ']', rest.dropWhile isJsonWs with
            | true, _ :: rest2 => .ok (JsonValue.arr [], rest2)
            | _, _ => parseJsonElems fuel rest []
          else if c == '"' then
            match scanJsonString rest "" with
            | .ok (s, rest2) => .ok (JsonValue.str s, rest2)
            | .error e => .error e
          else if (("null").toList).isPrefixOf (c :: rest) then
            .ok (JsonValue.null, (c :: rest).drop 4)
          else if (("true").toList).isPrefixOf (c :: rest) then
            .ok (JsonValue.bool true, (c :: rest).drop 4)
          else if (("false").toList).isPrefixOf (c :: rest) then
            .ok (JsonValue.bool false, (c :: rest).drop 5)
          else if c == '-' || c.isDigit then
            match scanJsonNumber (c :: rest) with
            | .ok (s, rest2) => .ok (JsonValue.num s, rest2)
            | .error e => .error e
          else .error ("Unexpected token in JSON")

/-- Parse the members of an object, positioned after `{` or after a `,`. -/
def parseJsonFields : Nat → List Char →
    List (String × JsonValue) → Except String (JsonValue × List Char)
  | 0, _, _ => .error ("JSON nesting too deep")
  | fuel + 1, l, acc =>
      match l.dropWhile isJsonWs with
      | [] => .error ("Unexpected end of JSON input")
      | c :: rest =>
          if c == '"' then
            match scanJsonString rest "" with
            | .error e => .error e
            | .ok (key, rest2) =>
                match rest2.dropWhile isJsonWs with
                | ':' :: rest3 =>
                    match parseJsonValue fuel rest3 with
                    | .error e => .error e
                    | .ok (v, rest4) =>
                        match rest4.dropWhile isJsonWs with
                        | ',' :: rest5 => parseJsonFields fuel rest5 (acc ++ [(key, v)])
                        | d :: rest5 =>
                            if d == rbrace then .ok (JsonValue.obj (acc ++ [(key, v)]), rest5)
                            else .error ("Expected comma or closing brace in JSON object")
                        | [] => .error ("Unexpected end of JSON input")
                | _ => .error ("Expected colon in JSON object")
          else .error ("Expected string key in JSON object")

/-- Parse the elements of an array, positioned after `[` or after a `,`. -/
def parseJsonElems : Nat → List Char →
    List JsonValue → Except String (JsonValue × List Char)
  | 0, _, _ => .error ("JSON nesting too deep")
  | fuel + 1, l, acc =>
      match parseJsonValue fuel l with
      | .error e => .error e
      | .ok (v, rest) =>
          match rest.dropWhile isJsonWs with
          | ',' :: rest2 => parseJsonElems fuel rest2 (acc ++ [v])
          | ']' :: rest2 => .ok (JsonValue.arr (acc ++ [v]), rest2)
          | _ => .error ("Expected comma or closing bracket in JSON array")

end

/-- Model of `JSON.parse`: parse one value and require only whitespace to
follow. -/
def jsonParse (s : String) : Except String JsonValue :=
  match parseJsonValue (s.length + 1) s.toList with
  | .error e => .error e
  | .ok (v, rest) =>
      if (rest.dropWhile isJsonWs).isEmpty then .ok v
      else .error ("Unexpected non-whitespace character after JSON data")

/-- claude-code.js lines 680-706: the object-producing tail of
`generateObject` as a function of the text `generateText` returned — parse
the extracted JSON substring, wrapping a parse failure in the typed
error. -/
def generateObjectFromText (text : String) : Except String JsonValue :=
  match jsonParse (extractJsonText text) with
  | .ok v => .ok v
  | .error msg =>
      .error (("Failed to parse JSON from Claude Code response: ") ++ msg)

/-! ## Supporting lemmas -/

theorem jsTruthy_some_iff (s : String) : jsTruthy (some s) = true ↔ s ≠ "" := by
  unfold jsTruthy
  rw [Bool.not_eq_true']
  constructor
  · intro hb e
    subst e
    exact absurd hb (by decide)
  · intro hne
    cases hb : s.isEmpty
    · rfl
    · exact absurd ((String.isEmpty_iff s).mp hb) hne

theorem push_length_pos (s : String) (c : Char) : 0 < (s.push c).length := by
  rcases s with ⟨data⟩
  simp [String.push, String.length]

/-- Unfolding equation: a backslash head with at least one following
character either escapes a quote/backslash (consuming both, appending the
escaped character) or is itself appended literally. -/
theorem parseTokens_backslash (c2 : Char) (rest2 : List Char) (cur : String)
    (inQ : Bool) (qc : Option Char) :
    parseTokens ('\\' :: c2 :: rest2) cur inQ qc =
      if c2 == '"' || c2 == squote || c2 == '\\' then
        parseTokens rest2 (cur.push c2) inQ qc
      else parseTokens (c2 :: rest2) (cur.push '\\') inQ qc := rfl

/-- Unfolding equation: a backslash at the very end of the input is
appended literally. -/
theorem parseTokens_backslash_nil (cur : String) (inQ : Bool) (qc : Option Char) :
    parseTokens ['\\'] cur inQ qc = parseTokens [] (cur.push '\\') inQ qc := rfl

/-- Unfolding equation for a non-backslash head character. -/
theorem parseTokens_head (c : Char) (rest : List Char) (cur : String) (inQ : Bool)
    (qc : Option Char) (hc : (c == '\\') = false) :
    parseTokens (c :: rest) cur inQ qc =
      if (c == '"' || c == squote) && (!inQ || some c == qc) then
        (if !inQ then parseTokens rest cur true (some c)
         else parseTokens rest cur false none)
      else if c == ' ' && !inQ then
        (if cur.length > 0 then cur :: parseTokens rest ("") inQ qc
         else parseTokens rest cur inQ qc)
      else parseTokens rest (cur.push c) inQ qc := by
  rw [parseTokens.eq_def]
  dsimp only
  rw [if_neg (by simp [hc])]

/-- Every token the command scanner emits is non-empty: tokens are only
flushed under a positive-length guard. -/
theorem parseTokensNoEmptyBounded (n : Nat) :
    ∀ (l : List Char) (cur : String) (inQ : Bool) (qc : Option Char),
      l.length ≤ n → ("") ∉ parseTokens l cur inQ qc := by
  induction n with
  | zero =>
      intro l cur inQ qc hl
      have hnil : l = [] := List.length_eq_zero.mp (Nat.le_zero.mp hl)
      subst hnil
      simp only [parseTokens]
      split
      · next hlen =>
          intro hm
          rcases List.mem_singleton.mp hm with rfl
          exact absurd hlen (by decide)
      · exact List.not_mem_nil _
  | succ n ih =>
      intro l cur inQ qc hl
      match l with
      | [] =>
          simp only [parseTokens]
          split
          · next hlen =>
              intro hm
              rcases List.mem_singleton.mp hm with rfl
              exact absurd hlen (by decide)
          · exact List.not_mem_nil _
      | c :: rest =>
          have hrest : rest.length ≤ n := by
            simp only [List.length_cons] at hl
            omega
          by_cases hc : c = '\\'
          · subst hc
            match rest, hrest with
            | [], _ =>
                rw [parseTokens_backslash_nil]
                exact ih [] (cur.push '\\') inQ qc (by simp)
            | c2 :: rest2, hrest =>
                have hrest2 : rest2.length ≤ n := Nat.le_of_succ_le hrest
                rw [parseTokens_backslash]
                split
                · exact ih rest2 (cur.push c2) inQ qc hrest2
                · exact ih (c2 :: rest2) (cur.push '\\') inQ qc hrest
          · rw [parseTokens_head c rest cur inQ qc (beq_eq_false_iff_ne.mpr hc)]
            split
            · split
              · exact ih rest cur true (some c) hrest
              · exact ih rest cur false none hrest
            · split
              · split
                · next hlen =>
                    intro hm
                    rcases List.mem_cons.mp hm with rfl | hm2
                    · exact absurd hlen (by decide)
                    · exact ih rest ("") inQ qc hrest hm2
                · exact ih rest cur inQ qc hrest
              · exact ih rest (cur.push c) inQ qc hrest

theorem parseTokensNoEmpty (l : List Char) (cur : String) (inQ : Bool)
    (qc : Option Char) : ("") ∉ parseTokens l cur inQ qc :=
  parseTokensNoEmptyBounded l.length l cur inQ qc (Nat.le_refl _)

/-- `hasModelFlag` holds exactly when `--model` occurs at a non-final
index of the argument list. -/
theorem hasModelFlag_iff (args : List String) :
    hasModelFlag args = true ↔
    ∃ i, i + 1 < args.length ∧ args[i]? = some (("--model")) := by
  unfold hasModelFlag
  rw [List.any_eq_true]
  constructor
  · rintro ⟨⟨i, a⟩, hmem, hp⟩
    rw [List.mem_enum_iff_getElem?] at hmem
    simp only [Bool.and_eq_true, beq_iff_eq, decide_eq_true_eq] at hp
    obtain ⟨hilen, -⟩ := List.getElem?_eq_some.mp hmem
    exact ⟨i, by omega, by rw [hmem, hp.1]⟩
  · rintro ⟨i, hlt, hget⟩
    refine ⟨(i, ("--model")), ?_, ?_⟩
    · rw [List.mem_enum_iff_getElem?]
      exact hget
    · simp only [Bool.and_eq_true, beq_iff_eq, decide_eq_true_eq]
      refine ⟨by trivial, by omega⟩

theorem jsLookup_cons_eq (x : String × String) (tl : List (String × String))
    (k2 : String) (hx : x.1 = k2) : jsLookup (x :: tl) k2 = some x.2 := by
  have hb : (x.1 == k2) = true := beq_iff_eq.mpr hx
  unfold jsLookup
  simp [List.find?, hb]

theorem jsLookup_cons_ne (x : String × String) (tl : List (String × String))
    (k2 : String) (hx : x.1 ≠ k2) : jsLookup (x :: tl) k2 = jsLookup tl k2 := by
  have hb : (x.1 == k2) = false := beq_eq_false_iff_ne.mpr hx
  unfold jsLookup
  simp [List.find?, hb]

theorem jsLookup_map_overwrite (k v k2 : String) (h : k2 ≠ k) :
    ∀ env : List (String × String),
      jsLookup (env.map (fun p => if p.1 == k then (k, v) else p)) k2 =
        jsLookup env k2 := by
  intro env
  induction env with
  | nil => rfl
  | cons hd tl ih =>
      rw [List.map_cons]
      by_cases hh : hd.1 = k
      · rw [if_pos (beq_iff_eq.mpr hh),
            jsLookup_cons_ne ⟨k, v⟩ _ k2 (fun e => h e.symm),
            jsLookup_cons_ne hd tl k2 (fun e => h (hh.symm.trans e).symm)]
        exact ih
      · rw [if_neg (by simp only [beq_iff_eq]; exact hh)]
        by_cases hp : hd.1 = k2
        · rw [jsLookup_cons_eq _ _ _ hp, jsLookup_cons_eq _ _ _ hp]
        · rw [jsLookup_cons_ne _ _ _ hp, jsLookup_cons_ne _ _ _ hp]
          exact ih

theorem jsLookup_append_single_ne (k v k2 : String) (h : k2 ≠ k) :
    ∀ env : List (String × String),
      jsLookup (env ++ [(k, v)]) k2 = jsLookup env k2 := by
  intro env
  induction env with
  | nil =>
      rw [List.nil_append]
      exact jsLookup_cons_ne ⟨k, v⟩ [] k2 (fun e => h e.symm)
  | cons hd tl ih =>
      rw [List.cons_append]
      by_cases hp : hd.1 = k2
      · rw [jsLookup_cons_eq _ _ _ hp, jsLookup_cons_eq _ _ _ hp]
      · rw [jsLookup_cons_ne _ _ _ hp, jsLookup_cons_ne _ _ _ hp]
        exact ih

theorem jsLookup_setEnv_ne (env : List (String × String)) (k v k2 : String)
    (h : k2 ≠ k) : jsLookup (setEnv env k v) k2 = jsLookup env k2 := by
  unfold setEnv
  split
  · exact jsLookup_map_overwrite k v k2 h env
  · exact jsLookup_append_single_ne k v k2 h env

theorem mergeRC_preserves_truthy (rcEnv : List (String × String)) :
    ∀ (env : List (String × String)) (k : String),
      jsTruthy (jsLookup env k) = true →
      jsLookup (mergeRCEnvironment env rcEnv) k = jsLookup env k := by
  induction rcEnv with
  | nil => intro env k _; rfl
  | cons kv tl ih =>
      intro env k h
      simp only [mergeRCEnvironment]
      split
      · exact ih env k h
      · next hguard =>
          have hne : k ≠ kv.1 := by
            intro e
            rw [← e] at hguard
            exact hguard h
          have hstep : jsLookup (setEnv env kv.1 kv.2) k = jsLookup env k :=
            jsLookup_setEnv_ne env kv.1 kv.2 k hne
          rw [ih (setEnv env kv.1 kv.2) k (by rw [hstep]; exact h), hstep]

theorem mergeRC_frame (rcEnv : List (String × String)) :
    ∀ (env : List (String × String)) (k : String),
      k ∉ rcEnv.map Prod.fst →
      jsLookup (mergeRCEnvironment env rcEnv) k = jsLookup env k := by
  induction rcEnv with
  | nil => intro env k _; rfl
  | cons kv tl ih =>
      intro env k hk
      have hne : k ≠ kv.1 := by
        intro e
        exact hk (by simp [e])
      have htl : k ∉ tl.map Prod.fst := by
        intro hmem
        exact hk (by simp [hmem])
      simp only [mergeRCEnvironment]
      split
      · exact ih env k htl
      · rw [ih (setEnv env kv.1 kv.2) k htl]
        exact jsLookup_setEnv_ne env kv.1 kv.2 k hne

/-- The environment after `executeClaudeCode` is exactly the RC merge of
the starting environment (the merge happens before any failure exit). -/
theorem executeClaudeCode_envAfter (w : ExecWorld) :
    (executeClaudeCode w).envAfter =
      match w.rcEnvironment with
      | some rcEnv => mergeRCEnvironment w.env rcEnv
      | none => w.env := by
  unfold executeClaudeCode
  rcases w with ⟨env, rcEnv, resolved, accessOk, outcome, unlinkFails⟩
  rcases resolved with _ | ⟨claudePath, parsedArgs⟩ <;>
    rcases accessOk <;> simp

/-- `parseCommand`'s executable is the default-empty head of the token
list. -/
theorem parseCommand_fst (b : String) :
    (parseCommand b).1 = (parseTokens b.toList ("") false none).headD "" := rfl

/-! ## Concrete configuration states used by witnesses -/

/-- All four command sources present. -/
def stParams : ProviderState :=
  { params := { claudeCodeCommand := some ("pcmd") },
    envCommand := some ("ecmd"),
    rcConfig := some { command := some ("rcmd") },
    detected := some ("dcmd") }

/-- Parameter source removed. -/
def stEnv : ProviderState :=
  { envCommand := some ("ecmd"),
    rcConfig := some { command := some ("rcmd") },
    detected := some ("dcmd") }

/-- Parameter and environment sources removed. -/
def stRC : ProviderState :=
  { rcConfig := some { command := some ("rcmd") }, detected := some ("dcmd") }

/-- Only auto-detection available. -/
def stDet : ProviderState := { detected := some ("dcmd") }

/-- No source available. -/
def stNone : ProviderState := {}

/-- The spec's end-to-end scenario: command with an existing complete
model flag, plus a model environment variable. -/
def c2StExisting : ProviderState :=
  { envCommand := some ("claude --model claude-3-5-sonnet"),
    envModel := some ("opus") }

/-- A dangling `--model` as the final token, plus a model environment
variable. -/
def c2StDangling : ProviderState :=
  { envCommand := some ("claude --model"), envModel := some ("opus") }

/-- A modelId naming the RC alias `fast`. -/
def c3State : ProviderState :=
  { params := { modelId := some ("fast") },
    envCommand := some ("claude"),
    rcConfig := some { rawAliases := [(("fast"), ("--model haiku"))] } }

/-- A resolved, executable command whose child exits 0 with trailing
whitespace on stdout. -/
def c5World : ExecWorld :=
  { resolved := some ((("/usr/bin/claude")), []), accessOk := true,
    outcome := ProcOutcome.closed (some 0) (("  ok\n")) (("")) }

/-- A resolved invocation that times out while the cleanup unlink
throws. -/
def c6World : ExecWorld :=
  { resolved := some ((("/usr/bin/claude")), [("-p")]), accessOk := true,
    outcome := ProcOutcome.timedOut, unlinkFails := true }

/-- An environment with `K` set to the empty string while the RC file
exports `K=v`. -/
def c7World : ExecWorld :=
  { env := [(("K"), (""))], rcEnvironment := some [(("K"), ("v"))] }

/-- An environment with a non-empty `A` while the RC file exports both
`A` and `B`. -/
def c7WorldW : ExecWorld :=
  { env := [(("A"), ("x"))],
    rcEnvironment := some [(("A"), ("ra")), (("B"), ("rb"))] }

/-- A whitespace-only explicit command parameter. -/
def c9WsState : ProviderState :=
  { params := { claudeCodeCommand := some (" ") } }

/-- An explicit command that repeats its executable token. -/
def c9DupState : ProviderState :=
  { params := { claudeCodeCommand := some ("claude claude") } }

/-- An ordinary two-token explicit command. -/
def c9GoodState : ProviderState :=
  { params := { claudeCodeCommand := some ("claude -p") } }

/-- A modelId naming RC alias `turbo` while the base command already has
`--model x`. -/
def c10State : ProviderState :=
  { params := { modelId := some ("turbo") },
    envCommand := some ("claude --model x y"),
    rcConfig := some { rawAliases := [(("turbo"), ("--model opus --verbose"))] } }

/-! ## The claims -/

/-- Claim C1: for every configuration state, the base command is taken
from exactly the first available (truthy) source in the strict order
params > environment > RC file > auto-detection, with no mixing of
sources; when none of the four yields a value, both resolver entry points
return `null` (modelled as `none`, there is no exception path), and when
one does, both succeed. -/
theorem c1_command_precedence (st : ProviderState) :
    (jsTruthy st.params.claudeCodeCommand = true →
      resolveBaseCommand st = st.params.claudeCodeCommand) ∧
    (jsTruthy st.params.claudeCodeCommand = false →
      jsTruthy st.envCommand = true →
      resolveBaseCommand st = st.envCommand) ∧
    (jsTruthy st.params.claudeCodeCommand = false →
      jsTruthy st.envCommand = false →
      jsTruthy (st.rcConfig.bind RCEffective.command) = true →
      resolveBaseCommand st = st.rcConfig.bind RCEffective.command) ∧
    (jsTruthy st.params.claudeCodeCommand = false →
      jsTruthy st.envCommand = false →
      jsTruthy (st.rcConfig.bind RCEffective.command) = false →
      jsTruthy st.detected = true →
      resolveBaseCommand st = st.detected) ∧
    (jsTruthy st.params.claudeCodeCommand = false →
      jsTruthy st.envCommand = false →
      jsTruthy (st.rcConfig.bind RCEffective.command) = false →
      jsTruthy st.detected = false →
      resolveBaseCommand st = none ∧ getClaudeCommand st = none ∧
        getClaudeCommandParsed st = none) ∧
    (resolveBaseCommand st ≠ none →
      getClaudeCommandParsed st ≠ none ∧ getClaudeCommand st ≠ none) := by
  refine ⟨?_, ?_, ?_, ?_, ?_, ?_⟩
  · intro h1
    simp [resolveBaseCommand, h1]
  · intro h1 h2
    simp [resolveBaseCommand, h1, h2]
  · intro h1 h2 h3
    simp [resolveBaseCommand, h1, h2, h3]
  · intro h1 h2 h3 h4
    simp [resolveBaseCommand, h1, h2, h3, h4]
  · intro h1 h2 h3 h4
    have hb : resolveBaseCommand st = none := by
      simp [resolveBaseCommand, h1, h2, h3, h4]
    exact ⟨hb,
      by simp [getClaudeCommand, getClaudeCommandParsed, aliasedBaseCommand, hb],
      by simp [getClaudeCommandParsed, aliasedBaseCommand, hb]⟩
  · intro hne
    rcases hsome : resolveBaseCommand st with _ | b
    · exact absurd hsome hne
    · constructor
      · simp [getClaudeCommandParsed, aliasedBaseCommand, hsome]
      · simp [getClaudeCommand, getClaudeCommandParsed, aliasedBaseCommand, hsome]

/-- Witness for C1: the precedence chain evaluated at five concrete
states, one per conjunct. -/
theorem c1_command_precedence_witness :
    resolveBaseCommand stParams = some ("pcmd") ∧
    resolveBaseCommand stEnv = some ("ecmd") ∧
    resolveBaseCommand stRC = some ("rcmd") ∧
    resolveBaseCommand stDet = some ("dcmd") ∧
    resolveBaseCommand stNone = none ∧
    getClaudeCommandParsed stNone = none :=
  ⟨(c1_command_precedence stParams).1 (by decide),
   (c1_command_precedence stEnv).2.1 (by decide) (by decide),
   (c1_command_precedence stRC).2.2.1 (by decide) (by decide) (by decide),
   (c1_command_precedence stDet).2.2.2.1 (by decide) (by decide) (by decide)
     (by decide),
   ((c1_command_precedence stNone).2.2.2.2.1 (by decide) (by decide) (by decide)
     (by decide)).1,
   ((c1_command_precedence stNone).2.2.2.2.1 (by decide) (by decide) (by decide)
     (by decide)).2.2⟩

/-- Claim C2: when a model value was resolved through the
`modelToUse` path (no RC alias expansion), a `--model` token at a
non-final position of the base arguments suppresses the appended flag (the
arguments stay exactly the base arguments), while a base argument list
without such a non-final `--model` — in particular one whose `--model` is
the dangling last token — gets `--model` plus the resolved value
appended. -/
theorem c2_model_flag_idempotence (st : ProviderState) (b m : String)
    (hb : aliasedBaseCommand st = some b)
    (hm : (resolveModel st).1 = some m)
    (hma : (resolveModel st).2 = none) :
    ((∃ i, i + 1 < (parseCommand b).2.length ∧
        (parseCommand b).2[i]? = some (("--model"))) →
      getClaudeCommandParsed st = some ((parseCommand b).1, (parseCommand b).2)) ∧
    ((("--model")) ∈ (parseCommand b).2 ∧
        ¬(∃ i, i + 1 < (parseCommand b).2.length ∧
          (parseCommand b).2[i]? = some (("--model"))) →
      getClaudeCommandParsed st =
        some ((parseCommand b).1, (parseCommand b).2 ++ [("--model"), m])) := by
  have hadd : ∀ args, modelAdditions st args =
      if hasModelFlag args then [] else [("--model"), m] := by
    intro args
    unfold modelAdditions
    rw [hma, hm]
  constructor
  · intro hex
    have hmf : hasModelFlag (parseCommand b).2 = true :=
      (hasModelFlag_iff _).mpr hex
    simp [getClaudeCommandParsed, hb, hadd, hmf]
  · rintro ⟨-, hnex⟩
    have hmf : hasModelFlag (parseCommand b).2 = false := by
      cases hv : hasModelFlag (parseCommand b).2
      · rfl
      · exact absurd ((hasModelFlag_iff _).mp hv) hnex
    simp [getClaudeCommandParsed, hb, hadd, hmf]

/-- Witness for C2: the spec's end-to-end scenario (`--model` with a
value present keeps the command unchanged) and the dangling-flag edge case
(a second `--model` pair is appended). -/
theorem c2_model_flag_idempotence_witness :
    getClaudeCommandParsed c2StExisting =
      some (("claude"), [("--model"), ("claude-3-5-sonnet")]) ∧
    getClaudeCommandParsed c2StDangling =
      some (("claude"), [("--model"), ("--model"), ("claude-opus-4-20250514")]) := by
  constructor
  · exact (c2_model_flag_idempotence c2StExisting
      ("claude --model claude-3-5-sonnet") ("claude-opus-4-20250514")
      (by decide) (by decide) (by decide)).1 ⟨0, by decide, by decide⟩
  · refine (c2_model_flag_idempotence c2StDangling ("claude --model")
      ("claude-opus-4-20250514") (by decide) (by decide) (by decide)).2
      ⟨by decide, ?_⟩
    rintro ⟨i, hi, -⟩
    have hlen : (parseCommand (("claude --model"))).2.length = 1 := by decide
    omega

/-- Claim C3: a `params.modelId` naming an RC alias makes resolution
append the tokenization of the alias's raw (multi-token) expansion, and
the synthesized `--model` path is not taken (`modelToUse` stays null). -/
theorem c3_alias_expansion (st : ProviderState) (rc : RCEffective)
    (mid v b : String)
    (hmid : st.params.modelId = some mid) (hmidNe : mid ≠ "")
    (hrc : st.rcConfig = some rc)
    (hv : jsLookup rc.rawAliases mid = some v) (hvNe : v ≠ "")
    (hb : aliasedBaseCommand st = some b) :
    getClaudeCommandParsed st =
      some ((parseCommand b).1,
        (parseCommand b).2 ++ (parseCommand (("dummy ") ++ v)).2) ∧
    (resolveModel st).1 = none := by
  have ht1 : jsTruthy (some mid) = true := (jsTruthy_some_iff mid).mpr hmidNe
  have ht2 : jsTruthy (some v) = true := (jsTruthy_some_iff v).mpr hvNe
  have hrm : resolveModel st = (none, some v) := by
    unfold resolveModel
    rw [hmid, hrc]
    simp only [Option.getD_some, hv, ht1, ht2, if_true, eq_self_iff_true]
  have hadd : ∀ args, modelAdditions st args =
      (parseCommand (("dummy ") ++ v)).2 := by
    intro args
    unfold modelAdditions
    rw [hrm]
  constructor
  · unfold getClaudeCommandParsed
    rw [hb]
    simp only [hadd]
  · rw [hrm]

/-- Witness for C3: modelId `fast` expands through the RC alias
`fast="--model haiku"` into two appended tokens. -/
theorem c3_alias_expansion_witness :
    getClaudeCommandParsed c3State = some (("claude"), [("--model"), ("haiku")]) ∧
    (resolveModel c3State).1 = none := by
  have h := c3_alias_expansion c3State
    { rawAliases := [(("fast"), ("--model haiku"))] }
    ("fast") ("--model haiku") ("claude")
    rfl (by decide) rfl (by decide) (by decide) (by decide)
  exact ⟨h.1, h.2⟩

/-- Claim C4: the tokenizer's backslash handling — a backslash escapes
exactly a following quote or backslash (consumed, escaped character
appended); before any other character, or at end of input, the backslash
itself is appended; consequently a backslash before a space lands at the
end of the preceding token and the space still splits. -/
theorem c4_backslash_escapes :
    (∀ (rest : List Char) (cur : String) (inQ : Bool) (qc : Option Char)
        (c2 : Char), (c2 = '"' ∨ c2 = squote ∨ c2 = '\\') →
      parseTokens ('\\' :: c2 :: rest) cur inQ qc =
        parseTokens rest (cur.push c2) inQ qc) ∧
    (∀ (rest : List Char) (cur : String) (inQ : Bool) (qc : Option Char)
        (c2 : Char), ¬(c2 = '"' ∨ c2 = squote ∨ c2 = '\\') →
      parseTokens ('\\' :: c2 :: rest) cur inQ qc =
        parseTokens (c2 :: rest) (cur.push '\\') inQ qc) ∧
    (∀ (cur : String) (inQ : Bool) (qc : Option Char),
      parseTokens ['\\'] cur inQ qc = [cur.push '\\']) ∧
    parseCommand ("claude\\ code --x") = (("claude\\"), [("code"), ("--x")]) := by
  refine ⟨?_, ?_, ?_, by decide⟩
  · intro rest cur inQ qc c2 h
    rw [parseTokens_backslash]
    rcases h with rfl | rfl | rfl <;> rfl
  · intro rest cur inQ qc c2 h
    rw [parseTokens_backslash]
    cases hcond : (c2 == '"' || c2 == squote || c2 == '\\')
    · rfl
    · exfalso
      apply h
      simpa [beq_iff_eq, or_assoc] using hcond
  · intro cur inQ qc
    rw [parseTokens_backslash_nil]
    show (if (cur.push '\\').length > 0 then [cur.push '\\'] else []) = _
    rw [if_pos (push_length_pos cur '\\')]

/-- Witness for C4: the three backslash rules applied on concrete
inputs. -/
theorem c4_backslash_escapes_witness :
    parseTokens ['\\', '"', 'x'] ("") false none = [("\"x")] ∧
    parseTokens ['\\', 'q'] ("") false none = [("\\q")] ∧
    parseTokens ['\\'] ("a") false none = [("a\\")] := by
  refine ⟨?_, ?_, ?_⟩
  · rw [c4_backslash_escapes.1 ['x'] ("") false none '"' (Or.inl rfl)]
    decide
  · rw [c4_backslash_escapes.2.1 [] ("") false none 'q' (by decide)]
    decide
  · rw [c4_backslash_escapes.2.2.1 ("a") false none]
    decide

/-- Claim C5: a non-zero (or null) exit code rejects with an error
embedding the exit code and the captured stderr; a zero exit with
non-empty stderr and empty stdout also rejects; every other zero exit
resolves with whitespace-trimmed stdout — and the settled result of
`executeClaudeCode` on a closed child is exactly this handler's verdict. -/
theorem c5_close_semantics (code : Option Int) (stdout stderr : String) :
    (code ≠ some 0 →
      closeHandler code stdout stderr =
        .error ((("Claude Code error (code ")) ++ exitCodeText code ++
          (("): ")) ++ stderr)) ∧
    (code = some 0 → stderr ≠ "" → stdout = "" →
      closeHandler code stdout stderr =
        .error ((("Claude Code error: ")) ++ stderr)) ∧
    (code = some 0 → (stderr = "" ∨ stdout ≠ "") →
      closeHandler code stdout stderr = .ok (jsTrim stdout)) ∧
    (∀ (w : ExecWorld) (claudePath : String) (args : List String),
      w.resolved = some (claudePath, args) → w.accessOk = true →
      w.outcome = ProcOutcome.closed code stdout stderr →
      (executeClaudeCode w).result = closeHandler code stdout stderr) := by
  refine ⟨?_, ?_, ?_, ?_⟩
  · intro h
    unfold closeHandler
    rw [if_pos (by rw [bne_iff_ne]; exact h)]
  · intro h0 herr hout
    subst h0
    subst hout
    have h1 : stderr.isEmpty = false := by
      cases he : stderr.isEmpty
      · rfl
      · exact absurd ((String.isEmpty_iff stderr).mp he) herr
    have hc1 : ¬(((some 0 : Option Int) != some 0) = true) := by simp
    have hc2 : (!stderr.isEmpty && ("" : String).isEmpty) = true := by
      rw [h1]
      decide
    unfold closeHandler
    rw [if_neg hc1, if_pos hc2]
  · intro h0 hcase
    subst h0
    have hc1 : ¬(((some 0 : Option Int) != some 0) = true) := by simp
    unfold closeHandler
    rw [if_neg hc1]
    rcases hcase with he | hne
    · subst he
      have hse : ("" : String).isEmpty = true := rfl
      have hneg : ¬((!("" : String).isEmpty && stdout.isEmpty) = true) := by
        rw [hse]
        simp
      rw [if_neg hneg]
    · have h2 : stdout.isEmpty = false := by
        cases he2 : stdout.isEmpty
        · rfl
        · exact absurd ((String.isEmpty_iff stdout).mp he2) hne
      have hneg : ¬((!stderr.isEmpty && stdout.isEmpty) = true) := by
        rw [h2]
        simp
      rw [if_neg hneg]
  · intro w claudePath args hres hacc hout
    rcases w with ⟨env, rcEnv, resolved, accessOk, outcome, unlink⟩
    subst hres
    subst hacc
    subst hout
    simp [executeClaudeCode]

/-- Witness for C5: each verdict evaluated concretely, including the full
executor round-trip. -/
theorem c5_close_semantics_witness :
    closeHandler (some 2) ("") ("bad") =
      .error (("Claude Code error (code 2): bad")) ∧
    closeHandler (some 0) ("") ("warn") =
      .error (("Claude Code error: warn")) ∧
    closeHandler (some 0) (("  ok\n")) ("warn") = .ok (("ok")) ∧
    (executeClaudeCode c5World).result = .ok (("ok")) := by
  refine ⟨?_, ?_, ?_, ?_⟩
  · exact (c5_close_semantics (some 2) ("") ("bad")).1 (by decide)
  · exact (c5_close_semantics (some 0) ("") ("warn")).2.1 rfl (by decide) rfl
  · exact (c5_close_semantics (some 0) ("  ok\n") ("warn")).2.2.1 rfl
      (Or.inr (by decide))
  · exact ((c5_close_semantics (some 0) ("  ok\n") ("")).2.2.2 c5World
      ("/usr/bin/claude") [] rfl rfl rfl).trans
      ((c5_close_semantics (some 0) ("  ok\n") ("")).2.2.1 rfl (Or.inl rfl))

/-- Claim C6: whenever the temporary prompt file was created, the cleanup
unlink is attempted — for closed children, `error` events and timeouts
alike — the caller-visible result never depends on whether the unlink
throws (cleanup errors are swallowed), and every invocation that passes
resolution and the executable check does create and then delete the
file. -/
theorem c6_temp_cleanup (w : ExecWorld) :
    ((executeClaudeCode w).tempFileWritten = true →
      (executeClaudeCode w).unlinkAttempted = true) ∧
    (∀ b : Bool,
      (executeClaudeCode { w with unlinkFails := b }).result =
        (executeClaudeCode w).result) ∧
    (w.resolved ≠ none → w.accessOk = true →
      (executeClaudeCode w).tempFileWritten = true ∧
      (executeClaudeCode w).unlinkAttempted = true) := by
  rcases w with ⟨env, rcEnv, resolved, accessOk, outcome, unlink⟩
  rcases resolved with _ | p
  · refine ⟨?_, fun b => rfl, fun h _ => absurd rfl h⟩
    intro h
    simp [executeClaudeCode] at h
  · rcases p with ⟨cp, args⟩
    cases accessOk
    · refine ⟨?_, fun b => rfl, fun _ hacc => absurd hacc Bool.false_ne_true⟩
      intro h
      simp [executeClaudeCode] at h
    · refine ⟨fun _ => by simp [executeClaudeCode], fun b => rfl, fun _ _ => ?_⟩
      exact ⟨by simp [executeClaudeCode], by simp [executeClaudeCode]⟩

/-- Witness for C6: a timed-out invocation with a failing unlink still
wrote and attempted to delete the temp file, and its result equals the
one with a working unlink. -/
theorem c6_temp_cleanup_witness :
    (executeClaudeCode c6World).tempFileWritten = true ∧
    (executeClaudeCode c6World).unlinkAttempted = true ∧
    (executeClaudeCode { c6World with unlinkFails := false }).result =
      (executeClaudeCode c6World).result := by
  refine ⟨?_, ?_, ?_⟩
  · exact ((c6_temp_cleanup c6World).2.2 (by decide) rfl).1
  · exact (c6_temp_cleanup c6World).1 (by decide)
  · exact (c6_temp_cleanup c6World).2.1 false

/-- Claim C7 counterexample: the RC-export merge guard is JavaScript
truthiness, not presence. The key `K` is already set in the process
environment (to the empty string), yet the merge overwrites it with the
RC export's value — contradicting "every environment key that already has
a value keeps its value unchanged". -/
theorem c7_counterexample :
    jsLookup c7World.env ("K") = some ("") ∧
    jsLookup (executeClaudeCode c7World).envAfter ("K") = some ("v") := by
  exact ⟨by decide, by decide⟩

/-- Claim C7 (amended): the merge step writes only RC-export keys whose
current value is missing or the empty string; every key holding a
non-empty value keeps it, and keys not named by any RC export are never
touched. -/
theorem c7_env_merge_amended (w : ExecWorld) (k : String) :
    (jsTruthy (jsLookup w.env k) = true →
      jsLookup (executeClaudeCode w).envAfter k = jsLookup w.env k) ∧
    (k ∉ (w.rcEnvironment.getD []).map Prod.fst →
      jsLookup (executeClaudeCode w).envAfter k = jsLookup w.env k) := by
  have he := executeClaudeCode_envAfter w
  rcases hrc : w.rcEnvironment with _ | rcEnv
  · rw [he, hrc]
    exact ⟨fun _ => rfl, fun _ => rfl⟩
  · rw [he, hrc]
    constructor
    · intro ht
      exact mergeRC_preserves_truthy rcEnv w.env k ht
    · intro hk
      exact mergeRC_frame rcEnv w.env k (by simpa using hk)

/-- Witness for C7 (amended): a non-empty value survives the merge; a key
absent from the exports is untouched. -/
theorem c7_env_merge_amended_witness :
    jsLookup (executeClaudeCode c7WorldW).envAfter ("A") = some ("x") ∧
    jsLookup (executeClaudeCode c7WorldW).envAfter ("C") =
      jsLookup c7WorldW.env ("C") := by
  constructor
  · exact ((c7_env_merge_amended c7WorldW ("A")).1 (by decide)).trans (by decide)
  · exact (c7_env_merge_amended c7WorldW ("C")).2 (by decide)

/-- Claim C8: `generateObject`'s result is the JSON parse of the
fence-stripped, brace-delimited substring of the generated text — on the
spec's scenario a fenced object inside prose round-trips — and a parse
failure surfaces as the typed error wrapping the parser's message. -/
theorem c8_generate_object_json :
    (generateObjectFromText
        (("Here is the result:\n```json\n\x7b\"a\":1\x7d\n```\nHope this helps!")) =
      .ok (JsonValue.obj [(("a"), JsonValue.num ("1"))])) ∧
    (∀ (text : String) (v : JsonValue),
      jsonParse (extractJsonText text) = .ok v →
      generateObjectFromText text = .ok v) ∧
    (∀ (text msg : String),
      jsonParse (extractJsonText text) = .error msg →
      generateObjectFromText text =
        .error ((("Failed to parse JSON from Claude Code response: ")) ++ msg)) := by
  refine ⟨by rfl, ?_, ?_⟩
  · intro text v h
    unfold generateObjectFromText
    rw [h]
  · intro text msg h
    unfold generateObjectFromText
    rw [h]

/-- Witness for C8: an unparsable response yields the typed wrapping
error. -/
theorem c8_generate_object_json_witness :
    generateObjectFromText ("no structured output here") =
      .error (("Failed to parse JSON from Claude Code response: Unexpected token in JSON")) :=
  c8_generate_object_json.2.2 ("no structured output here")
    ("Unexpected token in JSON") (by rfl)

/-- Claim C9 counterexample: resolution succeeds on a whitespace-only
command with an EMPTY executable (first conjunct), and a command that
repeats its executable token yields an args list CONTAINING the
executable (remaining conjuncts) — refuting both halves of the claimed
invariant. -/
theorem c9_counterexample :
    getClaudeCommandParsed c9WsState = some ((""), ([] : List String)) ∧
    getClaudeCommandParsed c9DupState = some (("claude"), [("claude")]) ∧
    (("claude")) ∈ [("claude")] := by
  exact ⟨by decide, by decide, by decide⟩

/-- Claim C9 (amended): when resolution succeeds, the executable is the
(default-empty) head token of the aliased base command and the args are
exactly the remaining tokens plus the appended model arguments; the
executable is non-empty whenever the base command tokenizes to at least
one token (a whitespace-only or quotes-only command is the only way to
get an empty executable, and args contain the executable only when the
command itself repeats that token or a model addition equals it). -/
theorem c9_parsed_invariant_amended (st : ProviderState) (b : String)
    (res : String × List String)
    (hb : aliasedBaseCommand st = some b)
    (h : getClaudeCommandParsed st = some res) :
    res.1 = (parseTokens b.toList ("") false none).headD "" ∧
    res.2 = (parseTokens b.toList ("") false none).tail ++
      modelAdditions st ((parseTokens b.toList ("") false none).tail) ∧
    (parseTokens b.toList ("") false none ≠ [] → res.1 ≠ "") := by
  have hg : getClaudeCommandParsed st =
      some ((parseCommand b).1,
        (parseCommand b).2 ++ modelAdditions st (parseCommand b).2) := by
    unfold getClaudeCommandParsed
    rw [hb]
  rw [hg] at h
  injection h with h2
  subst h2
  refine ⟨rfl, rfl, ?_⟩
  intro hne he
  apply parseTokensNoEmpty b.toList ("") false none
  have he2 : (parseTokens b.toList ("") false none).headD "" = "" := by
    rw [← parseCommand_fst]
    exact he
  rcases htok : parseTokens b.toList ("") false none with _ | ⟨t, ts⟩
  · exact absurd htok hne
  · rw [htok] at he2
    simp only [List.headD_cons] at he2
    rw [← he2]
    exact List.mem_cons_self t ts

/-- Witness for C9 (amended): a two-token command resolves to its head
token as a non-empty executable and its remaining token as args. -/
theorem c9_parsed_invariant_amended_witness :
    getClaudeCommandParsed c9GoodState = some (("claude"), [("-p")]) ∧
    (("claude") : String) ≠ "" := by
  refine ⟨by decide, ?_⟩
  exact (c9_parsed_invariant_amended c9GoodState ("claude -p")
    ((("claude")), [("-p")]) (by decide) (by decide)).2.2 (by decide)

/-- Claim C10: the RC alias-expansion path appends the expansion tokens
even when the base arguments already contain `--model` with a value; the
existing-flag check suppresses only the synthesized flag, never the alias
expansion. -/
theorem c10_alias_expansion_overrides_flag (st : ProviderState)
    (rc : RCEffective) (mid v b : String)
    (hmid : st.params.modelId = some mid) (hmidNe : mid ≠ "")
    (hrc : st.rcConfig = some rc)
    (hv : jsLookup rc.rawAliases mid = some v) (hvNe : v ≠ "")
    (hb : aliasedBaseCommand st = some b)
    (hflag : hasModelFlag (parseCommand b).2 = true) :
    getClaudeCommandParsed st =
      some ((parseCommand b).1,
        (parseCommand b).2 ++ (parseCommand (("dummy ") ++ v)).2) := by
  have ht1 : jsTruthy (some mid) = true := (jsTruthy_some_iff mid).mpr hmidNe
  have ht2 : jsTruthy (some v) = true := (jsTruthy_some_iff v).mpr hvNe
  have hrm : resolveModel st = (none, some v) := by
    unfold resolveModel
    rw [hmid, hrc]
    simp only [Option.getD_some, hv, ht1, ht2, if_true, eq_self_iff_true]
  have hadd : ∀ args, modelAdditions st args =
      (parseCommand (("dummy ") ++ v)).2 := by
    intro args
    unfold modelAdditions
    rw [hrm]
  unfold getClaudeCommandParsed
  rw [hb]
  simp only [hadd]

/-- Witness for C10: base arguments already carrying `--model x` still
receive the full alias expansion `--model opus --verbose`. -/
theorem c10_alias_expansion_overrides_flag_witness :
    getClaudeCommandParsed c10State =
      some (("claude"),
        [("--model"), ("x"), ("y"), ("--model"), ("opus"), ("--verbose")]) :=
  c10_alias_expansion_overrides_flag c10State
    { rawAliases := [(("turbo"), ("--model opus --verbose"))] }
    ("turbo") ("--model opus --verbose") ("claude --model x y")
    rfl (by decide) rfl (by decide) (by decide) (by decide) (by decide)

end ClaudeCode
